import Mathlib

set_option linter.all false

/-!
Shallow embedding of src/utils/image_helpers.py (fast-openISP numpy helpers).

A 2-D numpy array of element type α is modelled as an Img α: explicit
height and width plus a total indexing function (row, column) to α.
Positions outside the height/width bounds carry arbitrary values and are
never constrained by the theorems below.

Machine integers are modelled as Nat with explicit wrap (mod m, where m is
the modulus of the element dtype, e.g. 256 for uint8, or large for wide
types) at the points where the numpy code can overflow, and as Int where
the code promotes to signed 32-bit (the intermediate values of the color
converter stay far below 2 to the 31, so Int is exact there).
-/

universe u

structure Img (α : Type u) : Type u where
  H : Nat
  W : Nat
  data : Nat → Nat → α

/-- Models the Python str.lower() call: lowercase every character.  On the
ASCII pattern names this agrees with String.toLower; it is written as a
map over the character list so that the kernel can evaluate it. -/
def strLower (s : String) : String := String.mk (s.data.map Char.toLower)

/-- Embeds get_bayer_indices: a dictionary keyed by the lowercased pattern
string, returning the (x_start, y_start) pairs for the R, Gr, Gb, B
channels.  A key miss (Python KeyError) is modelled as none. -/
def get_bayer_indices (pattern : String) :
    Option ((Nat × Nat) × (Nat × Nat) × (Nat × Nat) × (Nat × Nat)) :=
  match strLower pattern with
  | "gbrg" => some ((0, 1), (1, 1), (0, 0), (1, 0))
  | "rggb" => some ((0, 0), (1, 0), (0, 1), (1, 1))
  | "bggr" => some ((1, 1), (0, 1), (1, 0), (0, 0))
  | "grbg" => some ((1, 0), (0, 0), (1, 1), (0, 1))
  | _ => none

/-- Embeds the numpy strided read bayer_array[y0::2, x0::2]: element (i, j)
of the slice is element (y0 + 2i, x0 + 2j) of the source, and the slice
dimensions are the ceilings of (H - y0)/2 and (W - x0)/2, written with
truncating Nat subtraction exactly as numpy clamps an empty slice to 0. -/
def slice2 {α : Type u} (a : Img α) (x0 y0 : Nat) : Img α :=
  { H := (a.H - y0 + 1) / 2
    W := (a.W - x0 + 1) / 2
    data := fun i j => a.data (y0 + 2 * i) (x0 + 2 * j) }

/-- Embeds split_bayer: look up the four offset pairs and take the four
strided sub-arrays in the order R, Gr, Gb, B. -/
def split_bayer {α : Type u} (bayer_array : Img α) (bayer_pattern : String) :
    Option (List (Img α)) :=
  (get_bayer_indices bayer_pattern).map fun idxs =>
    match idxs with
    | (iR, iGr, iGb, iB) =>
      [iR, iGr, iGb, iB].map fun idx => slice2 bayer_array idx.1 idx.2

/-- Embeds the numpy strided write base[y0::2, x0::2] = sub.  The write
targets the positions y0 + 2i (i < th), x0 + 2j (j < tw) where (th, tw) is
the shape of the strided slice of base.  numpy broadcasts the source to the
target shape: each source dimension must equal the target dimension or be
1 (a size-1 source axis is replicated); any other mismatch raises a
broadcast ValueError, modelled as none. -/
def setSlice2 {α : Type u} (base : Img α) (x0 y0 : Nat) (sub : Img α) :
    Option (Img α) :=
  if (sub.H = (base.H - y0 + 1) / 2 ∨ sub.H = 1) ∧
     (sub.W = (base.W - x0 + 1) / 2 ∨ sub.W = 1) then
    some { base with
      data := fun y x =>
        if y0 ≤ y ∧ (y - y0) % 2 = 0 ∧ (y - y0) / 2 < (base.H - y0 + 1) / 2 ∧
           x0 ≤ x ∧ (x - x0) % 2 = 0 ∧ (x - x0) / 2 < (base.W - x0 + 1) / 2 then
          sub.data (if sub.H = 1 then 0 else (y - y0) / 2)
                   (if sub.W = 1 then 0 else (x - x0) / 2)
        else base.data y x }
  else none

/-- Embeds reconstruct_bayer: allocate an uninitialized (2H, 2W) array
(np.empty, modelled by the arbitrary initial contents init), then scatter
each sub-array into its strided position.  zip truncates like the Python
zip, and an empty sub-array list is the Python IndexError on
sub_arrays[0], modelled as none. -/
def reconstruct_bayer {α : Type u} (sub_arrays : List (Img α))
    (bayer_pattern : String) (init : Nat → Nat → α) : Option (Img α) :=
  match get_bayer_indices bayer_pattern with
  | none => none
  | some (iR, iGr, iGb, iB) =>
    match sub_arrays with
    | [] => none
    | s0 :: _ =>
      let base : Img α := ⟨2 * s0.H, 2 * s0.W, init⟩
      (List.zip [iR, iGr, iGb, iB] sub_arrays).foldlM
        (fun acc p => setSlice2 acc p.1.1 p.1.2 p.2) base

/-- An N-dimensional numpy array: a shape list and a total indexing
function from coordinate lists to values. -/
structure NdArr (α : Type u) : Type u where
  shape : List Nat
  data : List Nat → α

/-- The pads argument of pad: either a Python int or a sequence
(list/tuple/ndarray) of ints. -/
inductive PadsArg : Type
  | int (r : Nat)
  | seq (l : List Nat)

/-- Source index selected by numpy reflect padding on one axis of size n
with pad-before b, at output coordinate i.  With v = i - b, numpy mode
reflect mirrors the array about its first and last samples without
repeating them, which for n at least 2 is the even-periodic extension of
period 2n - 2; a size-1 axis is replicated.  The result always lies in
[0, n) for n at least 1, for any pad width (numpy reflects repeatedly). -/
def reflectIdx (n b i : Nat) : Nat :=
  if n ≤ 1 then 0
  else
    let p : Int := 2 * (n : Int) - 2
    let t : Int := ((i : Int) - (b : Int)) % p
    if t < (n : Int) then t.toNat else (p - t).toNat

/-- Applies reflectIdx coordinate-wise along the zipped shape, pad widths
and output coordinates. -/
def reflectList : List Nat → List (Nat × Nat) → List Nat → List Nat
  | n :: ns, w :: ws, i :: is => reflectIdx n w.1 i :: reflectList ns ws is
  | _, _, _ => []

/-- Embeds the margin normalization in pad: a 2-element sequence becomes
symmetric (y, x) spatial pads plus zero pads for every trailing axis, a
4-element sequence becomes per-side spatial pads plus zero trailing pads,
any other sequence length raises NotImplementedError (none).  A plain int
is handed to np.pad unchanged, and np.pad broadcasts an int pad width to
every axis, before and after. -/
def padWidths (ndim : Nat) : PadsArg → Option (List (Nat × Nat))
  | .int r => some (List.replicate ndim (r, r))
  | .seq l =>
    match l with
    | [p0, p1] => some ([(p0, p0), (p1, p1)] ++ List.replicate (ndim - 2) (0, 0))
    | [p0, p1, p2, p3] => some ([(p0, p1), (p2, p3)] ++ List.replicate (ndim - 2) (0, 0))
    | _ => none

/-- Embeds pad (mode reflect, the only mode the repository uses): each
axis of size n with widths (b, a) grows to b + n + a, and output
coordinates map back through reflectIdx.  numpy raises for a size-0 axis
with a nonzero pad; the model stays total there and no theorem below
relies on that region. -/
def pad {α : Type u} (array : NdArr α) (pads : PadsArg) : Option (NdArr α) :=
  (padWidths array.shape.length pads).map fun ws =>
    { shape := List.zipWith (fun n w => w.1 + n + w.2) array.shape ws
      data := fun idx => array.data (reflectList array.shape ws idx) }

/-- pad specialized to a 2-D array with an int margin, as called by
mean_filter: np.pad(array, r, mode reflect) on a 2-D input pads both axes
by r on each side. -/
def pad2 {α : Type u} (a : Img α) (ry rx : Nat) : Img α :=
  { H := ry + a.H + ry
    W := rx + a.W + rx
    data := fun y x => a.data (reflectIdx a.H ry y) (reflectIdx a.W rx x) }

/-- Embeds shift_array on a 2-D array.  The source runs two nested loops,
y0 over [0, wy) outside and x0 over [0, wx) inside, yielding the crop
padded[y0 : y0 + height, x0 : x0 + width]; the row-major linear index of
the crop (y0, x0) is k = y0 * wx + x0, so the generator is the list over
k below.  height and width are the Python values H - wy + 1 and
W - wx + 1 clamped at 0 by the slice, written with Nat subtraction as
H + 1 - wy.  The assertion that both window sides are odd is modelled by
the guard (an assertion failure is none). -/
def shift_array {α : Type u} (padded_array : Img α) (wy wx : Nat) :
    Option (List (Img α)) :=
  if wy % 2 = 1 ∧ wx % 2 = 1 then
    some ((List.range (wy * wx)).map fun k =>
      { H := padded_array.H + 1 - wy
        W := padded_array.W + 1 - wx
        data := fun y x => padded_array.data (k / wx + y) (k % wx + x) })
  else none

/-- Embeds mean_filter on a 2-D array of an integer dtype with modulus m
(256 for uint8).  Python sum starts from the int 0, so the accumulation
happens in the input dtype and wraps mod m at every elementwise addition.
The division sum / filter_size ** 2 is float64 true division followed by
astype back to the input dtype; for the magnitudes reachable here (below
2 to the 32) the float64 quotient truncated toward zero equals Nat floor
division, which is how it is written. -/
def mean_filter (a : Img Nat) (m : Nat) (filter_size : Nat) : Option (Img Nat) :=
  if filter_size % 2 = 1 then
    (shift_array (pad2 a (filter_size / 2) (filter_size / 2))
        filter_size filter_size).map fun shifted_arrays =>
      let hh := (pad2 a (filter_size / 2) (filter_size / 2)).H + 1 - filter_size
      let ww := (pad2 a (filter_size / 2) (filter_size / 2)).W + 1 - filter_size
      let s : Img Nat := shifted_arrays.foldl
        (fun acc c => ⟨hh, ww, fun y x => (acc.data y x + c.data y x) % m⟩)
        ⟨hh, ww, fun _ _ => 0⟩
      ⟨hh, ww, fun y x => s.data y x / (filter_size * filter_size)⟩
  else none

/-- np.clip(x, 0, 255) on a signed value. -/
def clip8 (x : Int) : Int := max 0 (min 255 x)

/-- Embeds the per-pixel body of ycbcr_to_rgb.  The matrix in the source
is transposed before the product ycbcr @ matrix, so output channel c is
the sum over k of input[k] * M[c][k] with M the matrix as written, plus
the bias, then np.right_shift by 8 (arithmetic shift = floor division by
256, exact on Int via fdiv), then clip to [0, 255] and astype(uint8)
(exact toNat after the clip).  All intermediates stay far below 2 to the
31, so int32 arithmetic is exact and Int is a faithful model. -/
def ycbcr_pix (t : Nat × Nat × Nat) : Nat × Nat × Nat :=
  let y : Int := t.1
  let cb : Int := t.2.1
  let cr : Int := t.2.2
  let r := clip8 ((298 * y + 0 * cb + 411 * cr + (-57344)).fdiv 256)
  let g := clip8 ((298 * y + (-101) * cb + (-211) * cr + 34739).fdiv 256)
  let b := clip8 ((298 * y + 519 * cb + 0 * cr + (-71117)).fdiv 256)
  (r.toNat, g.toNat, b.toNat)

/-- Embeds ycbcr_to_rgb on a 3-channel image, an elementwise map of
ycbcr_pix over the pixels. -/
def ycbcr_to_rgb (ycbcr_array : Img (Nat × Nat × Nat)) : Img (Nat × Nat × Nat) :=
  { H := ycbcr_array.H
    W := ycbcr_array.W
    data := fun y x => ycbcr_pix (ycbcr_array.data y x) }

/-- A concrete 4 x 4 mosaic with pairwise distinct entries. -/
def sampleMosaic : Img Nat := ⟨4, 4, fun y x => 10 * y + x⟩

/-- A concrete 2 x 2 uint8 array holding 255 everywhere. -/
def const255 : Img Nat := ⟨2, 2, fun _ _ => 255⟩

/-- A concrete 2 x 2 uint8 array holding 20 everywhere. -/
def const20 : Img Nat := ⟨2, 2, fun _ _ => 20⟩

/-- A concrete 2 x 3 array with pairwise distinct entries. -/
def sampleA : Img Nat := ⟨2, 3, fun y x => 7 * y + x⟩

/-- A concrete constant sub-array of the given shape and value. -/
def constImg (h w v : Nat) : Img Nat := ⟨h, w, fun _ _ => v⟩

/-- A concrete 3-D array of shape (2, 2, 1). -/
def arr3d : NdArr Nat := ⟨[2, 2, 1], fun _ => 0⟩

/-- A concrete 2-D array of shape (2, 2). -/
def arr2d : NdArr Nat := ⟨[2, 2], fun _ => 0⟩

lemma get_bayer_indices_mem (p : String)
    (t : (Nat × Nat) × (Nat × Nat) × (Nat × Nat) × (Nat × Nat))
    (h : get_bayer_indices p = some t) :
    t = ((0, 1), (1, 1), (0, 0), (1, 0)) ∨ t = ((0, 0), (1, 0), (0, 1), (1, 1)) ∨
    t = ((1, 1), (0, 1), (1, 0), (0, 0)) ∨ t = ((1, 0), (0, 0), (1, 1), (0, 1)) := by
  unfold get_bayer_indices at h
  split at h <;> simp_all

lemma clip8_toNat_le (z : Int) : (clip8 z).toNat ≤ 255 := by
  simp only [clip8, max_def, min_def]
  split_ifs <;> omega

lemma reflectIdx_add (n b i : Nat) (h : i < n) : reflectIdx n b (b + i) = i := by
  unfold reflectIdx
  split
  · omega
  · rename_i hn
    have hv : ((b + i : Nat) : Int) - (b : Int) = (i : Int) := by push_cast; ring
    simp only [hv]
    have hm : (i : Int) % (2 * (n : Int) - 2) = (i : Int) :=
      Int.emod_eq_of_lt (by omega) (by omega)
    rw [hm, if_pos (by exact_mod_cast h)]
    omega

/-- C6: each of the four recognized pattern names, matched
case-insensitively (the source lowercases the key before the dictionary
lookup), maps to exactly the offset pairs of the fixed table, in the
order R, Gr, Gb, B; and for every pattern the four pairs are exactly the
set of the four 2 x 2 cells with no repeats (a permutation of them). -/
theorem C6_pattern_table :
    (∀ p : String, strLower p = "gbrg" →
      get_bayer_indices p = some ((0, 1), (1, 1), (0, 0), (1, 0))) ∧
    (∀ p : String, strLower p = "rggb" →
      get_bayer_indices p = some ((0, 0), (1, 0), (0, 1), (1, 1))) ∧
    (∀ p : String, strLower p = "bggr" →
      get_bayer_indices p = some ((1, 1), (0, 1), (1, 0), (0, 0))) ∧
    (∀ p : String, strLower p = "grbg" →
      get_bayer_indices p = some ((1, 0), (0, 0), (1, 1), (0, 1))) ∧
    (∀ p t, get_bayer_indices p = some t →
      List.Perm [t.1, t.2.1, t.2.2.1, t.2.2.2] [(0, 0), (0, 1), (1, 0), (1, 1)]) := by
  refine ⟨?_, ?_, ?_, ?_, ?_⟩
  · intro p h; unfold get_bayer_indices; rw [h]; rfl
  · intro p h; unfold get_bayer_indices; rw [h]; rfl
  · intro p h; unfold get_bayer_indices; rw [h]; rfl
  · intro p h; unfold get_bayer_indices; rw [h]; rfl
  · intro p t h
    rcases get_bayer_indices_mem p t h with h' | h' | h' | h' <;> subst h' <;> decide

/-- Witness for C6 at concrete inputs: an uppercase spelling of gbrg hits
the table, and the rggb entry is a permutation of the four cells. -/
theorem C6_pattern_table_witness :
    get_bayer_indices "GBRG" = some ((0, 1), (1, 1), (0, 0), (1, 0)) ∧
    List.Perm [((0, 0) : Nat × Nat), (1, 0), (0, 1), (1, 1)]
      [(0, 0), (0, 1), (1, 0), (1, 1)] :=
  ⟨C6_pattern_table.1 "GBRG" (by decide),
   C6_pattern_table.2.2.2.2 "rggb" ((0, 0), (1, 0), (0, 1), (1, 1)) (by decide)⟩

/-- C8: a margins sequence whose length is neither 2 nor 4 makes pad
raise NotImplementedError, so no padded output is produced. -/
theorem C8_pad_bad_margin_length {α : Type u} (a : NdArr α) (l : List Nat)
    (h2 : l.length ≠ 2) (h4 : l.length ≠ 4) : pad a (.seq l) = none := by
  unfold pad padWidths
  rcases l with _ | ⟨a1, _ | ⟨a2, _ | ⟨a3, _ | ⟨a4, _ | ⟨a5, rest⟩⟩⟩⟩⟩ <;> simp_all

/-- Witness for C8: the length-3 margins [1, 2, 3] on a concrete 2-D
array produce no output. -/
theorem C8_pad_bad_margin_length_witness : pad arr2d (.seq [1, 2, 3]) = none :=
  C8_pad_bad_margin_length arr2d [1, 2, 3] (by decide) (by decide)

/-- C3 (code bug evaluation): on the 3-D array of shape (2, 2, 1), pad
with the int margin 1 hands the bare int to np.pad, which broadcasts it
to every axis, so the trailing (channel) axis of size 1 comes back with
size 3 instead of 1: the docstring of pad says an int pads the top,
bottom, left and right directions only. -/
theorem C3_pad_int_pads_trailing_axis :
    (pad arr3d (.int 1)).map NdArr.shape = some [4, 4, 3] ∧ (3 : Nat) ≠ 1 :=
  ⟨by decide, by decide⟩

/-- C4: ycbcr_to_rgb is the elementwise fixed-point transform ycbcr_pix
(promote to signed 32-bit, multiply by the transposed scaled matrix, add
the bias, arithmetic-right-shift by 8 with floor semantics, clamp to
[0, 255], cast to uint8); the known points (255, 128, 128) to
(255, 255, 255) and (16, 128, 128) to (0, 0, 0) hold, and every output
channel lies in [0, 255] for every input. -/
theorem C4_ycbcr_to_rgb_correct :
    (∀ (a : Img (Nat × Nat × Nat)) (y x : Nat),
      (ycbcr_to_rgb a).H = a.H ∧ (ycbcr_to_rgb a).W = a.W ∧
      (ycbcr_to_rgb a).data y x = ycbcr_pix (a.data y x)) ∧
    ycbcr_pix (255, 128, 128) = (255, 255, 255) ∧
    ycbcr_pix (16, 128, 128) = (0, 0, 0) ∧
    ∀ t : Nat × Nat × Nat,
      (ycbcr_pix t).1 ≤ 255 ∧ (ycbcr_pix t).2.1 ≤ 255 ∧ (ycbcr_pix t).2.2 ≤ 255 := by
  refine ⟨fun a y x => ⟨rfl, rfl, rfl⟩, by decide, by decide, fun t => ?_⟩
  exact ⟨clip8_toNat_le _, clip8_toNat_le _, clip8_toNat_le _⟩

/-- C5: padding any 2-D array by margin r (reflect) and shifting with
windowSize 2r + 1 yields a sequence whose element at linear index
r * windowSize + r (the row-major center of the window) is the original
array exactly: same dimensions and equal at every in-bounds position. -/
theorem C5_shift_center_identity {α : Type u} (A : Img α) (r : Nat) :
    ∃ l, shift_array (pad2 A r r) (2 * r + 1) (2 * r + 1) = some l ∧
      l.length = (2 * r + 1) * (2 * r + 1) ∧
      ∃ c, l[r * (2 * r + 1) + r]? = some c ∧ c.H = A.H ∧ c.W = A.W ∧
        ∀ y x, y < A.H → x < A.W → c.data y x = A.data y x := by
  have hodd : (2 * r + 1) % 2 = 1 := by omega
  simp only [shift_array]
  rw [if_pos ⟨hodd, hodd⟩]
  refine ⟨_, rfl, by simp, ?_⟩
  have hk : r * (2 * r + 1) + r < (2 * r + 1) * (2 * r + 1) := by nlinarith
  have hdiv : (r * (2 * r + 1) + r) / (2 * r + 1) = r := by
    rw [Nat.mul_comm r (2 * r + 1), Nat.mul_add_div (by omega),
      Nat.div_eq_of_lt (by omega)]
    omega
  have hmod : (r * (2 * r + 1) + r) % (2 * r + 1) = r := by
    rw [Nat.mul_comm r (2 * r + 1), Nat.mul_add_mod]
    exact Nat.mod_eq_of_lt (by omega)
  rw [List.getElem?_map, List.getElem?_range hk]
  refine ⟨_, rfl, by simp [pad2]; omega, by simp [pad2]; omega, ?_⟩
  intro y x hy hx
  simp only [hdiv, hmod, pad2]
  have h1 := reflectIdx_add A.H r y hy
  have h2 := reflectIdx_add A.W r x hx
  rw [h1, h2]

/-- C10: mean_filter with filterSize 1 is the identity: the output has
the dimensions of the input, the same element dtype (the same modulus m
in the model), and equal values at every in-bounds position. -/
theorem C10_mean_filter_one_identity (a : Img Nat) (m : Nat) :
    ∃ R, mean_filter a m 1 = some R ∧ R.H = a.H ∧ R.W = a.W ∧
      ∀ y x, y < a.H → x < a.W → a.data y x < m → R.data y x = a.data y x := by
  simp only [mean_filter, shift_array, and_self, if_true]
  simp only [Option.map_some']
  refine ⟨_, rfl, by simp [pad2], by simp [pad2], ?_⟩
  intro y x hy hx hlt
  have h1 := reflectIdx_add a.H 0 y hy
  have h2 := reflectIdx_add a.W 0 x hx
  rw [Nat.zero_add] at h1 h2
  simp only [show (1 * 1 : Nat) = 1 from rfl, show (1 / 2 : Nat) = 0 from rfl,
    show List.range 1 = [0] from rfl, List.map_cons, List.map_nil,
    List.foldl_cons, List.foldl_nil, pad2, Nat.zero_div, Nat.zero_mod,
    Nat.mod_one, Nat.zero_add, Nat.div_one, h1, h2]
  exact Nat.mod_eq_of_lt hlt

/-- Witness for C5 at the concrete 2 x 3 array and margin 1: the element
at linear index 4 of the 9 shifts is the original array. -/
theorem C5_shift_center_identity_witness :
    ∃ l, shift_array (pad2 sampleA 1 1) 3 3 = some l ∧ l.length = 9 ∧
      ∃ c, l[4]? = some c ∧ c.H = 2 ∧ c.W = 3 ∧ c.data 1 2 = sampleA.data 1 2 := by
  obtain ⟨l, hl, hlen, c, hc, hH, hW, hdata⟩ := C5_shift_center_identity sampleA 1
  exact ⟨l, hl, hlen, c, hc, hH.trans rfl, hW.trans rfl,
    hdata 1 2 (by decide) (by decide)⟩

/-- Witness for C10 at a concrete 2 x 3 array with uint8 modulus. -/
theorem C10_mean_filter_one_identity_witness :
    ∃ R, mean_filter sampleA 256 1 = some R ∧ R.H = 2 ∧ R.W = 3 ∧
      R.data 1 2 = sampleA.data 1 2 := by
  obtain ⟨R, hR, hH, hW, hd⟩ := C10_mean_filter_one_identity sampleA 256
  exact ⟨R, hR, hH.trans rfl, hW.trans rfl, hd 1 2 (by decide) (by decide) (by decide)⟩

lemma foldl_addmod_data (m hh ww : Nat) (hm : 0 < m) (l : List (Img Nat))
    (acc : Img Nat) (y x : Nat) (hacc : acc.data y x < m) :
    (l.foldl (fun acc c =>
        (⟨hh, ww, fun y x => (acc.data y x + c.data y x) % m⟩ : Img Nat)) acc).data y x
      = (acc.data y x + (l.map (fun c => c.data y x)).sum) % m := by
  induction l generalizing acc with
  | nil => simp [Nat.mod_eq_of_lt hacc]
  | cons c rest ih =>
    simp only [List.foldl_cons, List.map_cons, List.sum_cons]
    rw [ih _ (Nat.mod_lt _ hm)]
    show ((acc.data y x + c.data y x) % m + _) % m = _
    rw [Nat.mod_add_mod, Nat.add_assoc]

/-- C2 counterexample: mean_filter on the constant 255 uint8 array with
filterSize 3 returns 27, not 255, because the nine shifted views are
summed in the uint8 dtype itself (Python sum starts from the int 0 and
numpy keeps uint8), wrapping 9 * 255 = 2295 to 247, and 247 / 9
truncates to 27.  No wider accumulation type is used. -/
theorem C2_mean_filter_uint8_overflow :
    const255.data 0 0 = 255 ∧
    (mean_filter const255 256 3).map (fun R => R.data 0 0) = some 27 ∧
    (27 : Nat) ≠ 255 :=
  ⟨by decide, by decide, by decide⟩

/-- C2 (amended): on a nonempty constant array of value v, mean_filter
returns v everywhere provided the accumulated sum v * filterSize^2 does
not overflow the element dtype (stays below the modulus m); the sum is
accumulated in the input dtype, not in a wider type. -/
theorem C2_mean_filter_const_no_overflow (a : Img Nat) (m v fs : Nat)
    (hconst : ∀ y x, a.data y x = v) (hodd : fs % 2 = 1)
    (hfit : v * (fs * fs) < m) (hH : 0 < a.H) (hW : 0 < a.W) :
    ∃ R, mean_filter a m fs = some R ∧ R.H = a.H ∧ R.W = a.W ∧
      ∀ y x, R.data y x = v := by
  have hm : 0 < m := by omega
  have hfs : 0 < fs := by omega
  simp only [mean_filter, shift_array]
  rw [if_pos hodd, if_pos ⟨hodd, hodd⟩]
  simp only [Option.map_some']
  refine ⟨_, rfl, by simp [pad2]; omega, by simp [pad2]; omega, ?_⟩
  intro y x
  change (_ : Nat) / (fs * fs) = v
  rw [foldl_addmod_data m _ _ hm _ _ y x hm]
  have hmap : (((List.range (fs * fs)).map fun k =>
      (⟨(pad2 a (fs / 2) (fs / 2)).H + 1 - fs, (pad2 a (fs / 2) (fs / 2)).W + 1 - fs,
        fun y x => (pad2 a (fs / 2) (fs / 2)).data (k / fs + y) (k % fs + x)⟩ :
          Img Nat)).map fun c => c.data y x) = List.replicate (fs * fs) v := by
    rw [List.map_map]
    refine List.eq_replicate_iff.2 ⟨by simp, ?_⟩
    intro b hb
    simp only [List.mem_map, List.mem_range, Function.comp] at hb
    obtain ⟨k, hk, rfl⟩ := hb
    simp [pad2, hconst]
  rw [hmap, List.sum_replicate, smul_eq_mul, Nat.zero_add,
    Nat.mod_eq_of_lt (by rw [Nat.mul_comm]; exact hfit),
    Nat.mul_div_cancel_left v (Nat.mul_pos hfs hfs)]

/-- Witness for the amended C2 at the constant 20 uint8 array with
filterSize 3 (20 * 9 = 180 fits in uint8). -/
theorem C2_mean_filter_const_no_overflow_witness :
    ∃ R, mean_filter const20 256 3 = some R ∧ R.H = 2 ∧ R.W = 2 ∧ R.data 0 0 = 20 := by
  obtain ⟨R, hR, hH, hW, hd⟩ := C2_mean_filter_const_no_overflow const20 256 20 3
    (fun _ _ => rfl) (by decide) (by decide) (by decide) (by decide)
  exact ⟨R, hR, hH.trans rfl, hW.trans rfl, hd 0 0⟩

lemma Img.H_mk {α : Type u} (hh ww : Nat) (f : Nat → Nat → α) :
    (Img.mk hh ww f).H = hh := rfl

lemma Img.W_mk {α : Type u} (hh ww : Nat) (f : Nat → Nat → α) :
    (Img.mk hh ww f).W = ww := rfl

lemma Img.data_mk {α : Type u} (hh ww : Nat) (f : Nat → Nat → α) (y x : Nat) :
    (Img.mk hh ww f).data y x = f y x := rfl

lemma setSlice2_some {α : Type u} (bH bW : Nat) (d : Nat → Nat → α) (x0 y0 : Nat)
    (sub : Img α) (hsH : sub.H = (bH - y0 + 1) / 2) (hsW : sub.W = (bW - x0 + 1) / 2) :
    setSlice2 ⟨bH, bW, d⟩ x0 y0 sub = some ⟨bH, bW, fun y x =>
      if y0 ≤ y ∧ (y - y0) % 2 = 0 ∧ (y - y0) / 2 < (bH - y0 + 1) / 2 ∧
         x0 ≤ x ∧ (x - x0) % 2 = 0 ∧ (x - x0) / 2 < (bW - x0 + 1) / 2 then
        sub.data (if sub.H = 1 then 0 else (y - y0) / 2)
                 (if sub.W = 1 then 0 else (x - x0) / 2)
      else d y x⟩ := by
  unfold setSlice2
  rw [if_pos ⟨Or.inl hsH, Or.inl hsW⟩]

lemma setSlice2_none {α : Type u} (base : Img α) (x0 y0 : Nat) (sub : Img α)
    (h : ¬ ((sub.H = (base.H - y0 + 1) / 2 ∨ sub.H = 1) ∧
            (sub.W = (base.W - x0 + 1) / 2 ∨ sub.W = 1))) :
    setSlice2 base x0 y0 sub = none := by
  unfold setSlice2
  rw [if_neg h]

lemma setSlice2_dims {α : Type u} (base : Img α) (x0 y0 : Nat) (sub r : Img α)
    (h : setSlice2 base x0 y0 sub = some r) : r.H = base.H ∧ r.W = base.W := by
  unfold setSlice2 at h
  split at h
  · obtain rfl := Option.some.inj h
    exact ⟨rfl, rfl⟩
  · simp at h

lemma foldlM_setSlice2_none {α : Type u} (l : List ((Nat × Nat) × Img α))
    (bH bW : Nat) : ∀ acc : Img α, acc.H = bH → acc.W = bW →
    (∃ e ∈ l, ¬ ((e.2.H = (bH - e.1.2 + 1) / 2 ∨ e.2.H = 1) ∧
                 (e.2.W = (bW - e.1.1 + 1) / 2 ∨ e.2.W = 1))) →
    l.foldlM (fun acc p => setSlice2 acc p.1.1 p.1.2 p.2) acc = none := by
  induction l with
  | nil => intro acc _ _ h; simp at h
  | cons e rest ih =>
    rintro acc haccH haccW ⟨f, hf, hbad⟩
    rw [List.foldlM_cons]
    rcases List.mem_cons.1 hf with rfl | hfr
    · rw [setSlice2_none acc f.1.1 f.1.2 f.2 (by rw [haccH, haccW]; exact hbad)]
      rfl
    · cases hset : setSlice2 acc e.1.1 e.1.2 e.2 with
      | none => rfl
      | some acc2 =>
        simp only [Option.bind_eq_bind, Option.some_bind]
        obtain ⟨hh2, hw2⟩ := setSlice2_dims acc e.1.1 e.1.2 e.2 acc2 hset
        exact ih acc2 (hh2.trans haccH) (hw2.trans haccW) ⟨f, hfr, hbad⟩

set_option maxHeartbeats 1600000 in
lemma recon_core {α : Type u} (s0 s1 s2 s3 : Img α) (hh ww a b : Nat)
    (ha : a ≤ 1) (hb : b ≤ 1)
    (h0 : s0.H = hh) (h0w : s0.W = ww) (h1 : s1.H = hh) (h1w : s1.W = ww)
    (h2 : s2.H = hh) (h2w : s2.W = ww) (h3 : s3.H = hh) (h3w : s3.W = ww)
    (init : Nat → Nat → α) :
    ∃ R, ([((a, b), s0), ((1 - a, b), s1), ((a, 1 - b), s2),
        ((1 - a, 1 - b), s3)].foldlM
        (fun acc p => setSlice2 acc p.1.1 p.1.2 p.2)
        (⟨2 * s0.H, 2 * s0.W, init⟩ : Img α)) = some R ∧
      R.H = 2 * hh ∧ R.W = 2 * ww ∧
      ∀ y x, y < 2 * hh → x < 2 * ww →
        ((x % 2 = a ∧ y % 2 = b) →
          R.data y x = s0.data ((y - b) / 2) ((x - a) / 2)) ∧
        ((x % 2 = 1 - a ∧ y % 2 = b) →
          R.data y x = s1.data ((y - b) / 2) ((x - (1 - a)) / 2)) ∧
        ((x % 2 = a ∧ y % 2 = 1 - b) →
          R.data y x = s2.data ((y - (1 - b)) / 2) ((x - a) / 2)) ∧
        ((x % 2 = 1 - a ∧ y % 2 = 1 - b) →
          R.data y x = s3.data ((y - (1 - b)) / 2) ((x - (1 - a)) / 2)) := by
  rw [List.foldlM_cons,
    setSlice2_some (2 * s0.H) (2 * s0.W) init a b s0 (by omega) (by omega)]
  simp only [Option.bind_eq_bind, Option.some_bind]
  rw [List.foldlM_cons,
    setSlice2_some (2 * s0.H) (2 * s0.W) _ (1 - a) b s1 (by omega) (by omega)]
  simp only [Option.bind_eq_bind, Option.some_bind]
  rw [List.foldlM_cons,
    setSlice2_some (2 * s0.H) (2 * s0.W) _ a (1 - b) s2 (by omega) (by omega)]
  simp only [Option.bind_eq_bind, Option.some_bind]
  rw [List.foldlM_cons,
    setSlice2_some (2 * s0.H) (2 * s0.W) _ (1 - a) (1 - b) s3 (by omega) (by omega)]
  simp only [Option.bind_eq_bind, Option.some_bind, List.foldlM_nil, Option.pure_def]
  refine ⟨_, rfl, by rw [h0], by rw [h0w], ?_⟩
  intro y x hy hx
  refine ⟨?_, ?_, ?_, ?_⟩ <;> rintro ⟨hx2, hy2⟩ <;>
    simp only [Img.data_mk] <;>
    split_ifs <;>
    first
      | exact congrArg₂ _ (by omega) (by omega)
      | (exfalso; omega)

lemma C1_core {α : Type u} (M : Img α) (hh ww a b : Nat)
    (ha : a ≤ 1) (hb : b ≤ 1) (hM : M.H = 2 * hh) (hMw : M.W = 2 * ww)
    (init : Nat → Nat → α) :
    ∃ R, ([((a, b), slice2 M a b), ((1 - a, b), slice2 M (1 - a) b),
        ((a, 1 - b), slice2 M a (1 - b)),
        ((1 - a, 1 - b), slice2 M (1 - a) (1 - b))].foldlM
        (fun acc p => setSlice2 acc p.1.1 p.1.2 p.2)
        (⟨2 * (slice2 M a b).H, 2 * (slice2 M a b).W, init⟩ : Img α)) = some R ∧
      R.H = M.H ∧ R.W = M.W ∧
      ∀ y x, y < M.H → x < M.W → R.data y x = M.data y x := by
  obtain ⟨R, hR, hRH, hRW, hdata⟩ := recon_core (slice2 M a b) (slice2 M (1 - a) b)
    (slice2 M a (1 - b)) (slice2 M (1 - a) (1 - b)) hh ww a b ha hb
    (by simp only [slice2, Img.H_mk]; omega) (by simp only [slice2, Img.W_mk]; omega)
    (by simp only [slice2, Img.H_mk]; omega) (by simp only [slice2, Img.W_mk]; omega)
    (by simp only [slice2, Img.H_mk]; omega) (by simp only [slice2, Img.W_mk]; omega)
    (by simp only [slice2, Img.H_mk]; omega) (by simp only [slice2, Img.W_mk]; omega)
    init
  refine ⟨R, hR, by rw [hM]; exact hRH, by rw [hMw]; exact hRW, ?_⟩
  intro y x hy hx
  obtain ⟨c0, c1, c2, c3⟩ := hdata y x (by omega) (by omega)
  have hxa : x % 2 = a ∨ x % 2 = 1 - a := by omega
  have hyb : y % 2 = b ∨ y % 2 = 1 - b := by omega
  rcases hxa with hx2 | hx2 <;> rcases hyb with hy2 | hy2
  · rw [c0 ⟨hx2, hy2⟩]
    simp only [slice2, Img.data_mk]
    exact congrArg₂ _ (by omega) (by omega)
  · rw [c2 ⟨hx2, hy2⟩]
    simp only [slice2, Img.data_mk]
    exact congrArg₂ _ (by omega) (by omega)
  · rw [c1 ⟨hx2, hy2⟩]
    simp only [slice2, Img.data_mk]
    exact congrArg₂ _ (by omega) (by omega)
  · rw [c3 ⟨hx2, hy2⟩]
    simp only [slice2, Img.data_mk]
    exact congrArg₂ _ (by omega) (by omega)

/-- C1: for every valid Bayer pattern (any string the table accepts,
case-insensitively) and every mosaic with even height and width, feeding
the channels produced by split_bayer back into reconstruct_bayer returns
a mosaic of the same dimensions that agrees with the original element for
element, whatever junk the uninitialized allocation held. -/
theorem C1_split_reconstruct_roundtrip {α : Type u} (p : String) (M : Img α)
    (hHe : M.H % 2 = 0) (hWe : M.W % 2 = 0) (subs : List (Img α))
    (hs : split_bayer M p = some subs) (init : Nat → Nat → α) :
    ∃ R, reconstruct_bayer subs p init = some R ∧ R.H = M.H ∧ R.W = M.W ∧
      ∀ y x, y < M.H → x < M.W → R.data y x = M.data y x := by
  cases hgb : get_bayer_indices p with
  | none =>
    unfold split_bayer at hs
    rw [hgb] at hs
    simp at hs
  | some t =>
    obtain ⟨hh, hM⟩ : ∃ k, M.H = 2 * k := ⟨M.H / 2, by omega⟩
    obtain ⟨ww, hMw⟩ : ∃ k, M.W = 2 * k := ⟨M.W / 2, by omega⟩
    rcases get_bayer_indices_mem p t hgb with rfl | rfl | rfl | rfl <;>
      (simp only [split_bayer, hgb, Option.map_some', List.map_cons, List.map_nil,
        Option.some.injEq] at hs
       subst hs
       simp only [reconstruct_bayer, hgb, List.zip_cons_cons, List.zip_nil_right])
    · exact C1_core M hh ww 0 1 (by omega) (by omega) hM hMw init
    · exact C1_core M hh ww 0 0 (by omega) (by omega) hM hMw init
    · exact C1_core M hh ww 1 1 (by omega) (by omega) hM hMw init
    · exact C1_core M hh ww 1 0 (by omega) (by omega) hM hMw init

/-- Witness for C1: the concrete 4 x 4 mosaic split with pattern rggb and
reconstructed over a junk-filled allocation gives back the mosaic. -/
theorem C1_split_reconstruct_roundtrip_witness :
    ∃ R, reconstruct_bayer [slice2 sampleMosaic 0 0, slice2 sampleMosaic 1 0,
        slice2 sampleMosaic 0 1, slice2 sampleMosaic 1 1] "rggb"
        (fun _ _ => 42) = some R ∧
      R.H = 4 ∧ R.W = 4 ∧ R.data 2 3 = sampleMosaic.data 2 3 := by
  obtain ⟨R, hR, hH, hW, hd⟩ := C1_split_reconstruct_roundtrip "rggb" sampleMosaic
    (by decide) (by decide) _ rfl (fun _ _ => 42)
  exact ⟨R, hR, hH.trans rfl, hW.trans rfl, hd 2 3 (by decide) (by decide)⟩

/-- C9: for every valid pattern and four sub-arrays of one common shape
(hh, ww), reconstruction succeeds, every in-bounds element of the
(2hh, 2ww) output is independent of the uninitialized allocation
contents, exactly one of the four offset pairs matches each cell parity
(the offsets partition the 2 x 2 cell), and every element is a value
copied from one of the four sub-arrays at an in-bounds index. -/
theorem C9_reconstruct_covers_output {α : Type u} (p : String)
    (t : (Nat × Nat) × (Nat × Nat) × (Nat × Nat) × (Nat × Nat))
    (ht : get_bayer_indices p = some t) (s0 s1 s2 s3 : Img α) (hh ww : Nat)
    (h0 : s0.H = hh) (h0w : s0.W = ww) (h1 : s1.H = hh) (h1w : s1.W = ww)
    (h2 : s2.H = hh) (h2w : s2.W = ww) (h3 : s3.H = hh) (h3w : s3.W = ww)
    (init init' : Nat → Nat → α) :
    ∃ R R', reconstruct_bayer [s0, s1, s2, s3] p init = some R ∧
      reconstruct_bayer [s0, s1, s2, s3] p init' = some R' ∧
      R.H = 2 * hh ∧ R.W = 2 * ww ∧
      ∀ y x, y < 2 * hh → x < 2 * ww →
        R.data y x = R'.data y x ∧
        ([t.1, t.2.1, t.2.2.1, t.2.2.2].countP
          (fun o => decide (o.1 = x % 2 ∧ o.2 = y % 2))) = 1 ∧
        ∃ s, (s = s0 ∨ s = s1 ∨ s = s2 ∨ s = s3) ∧ ∃ i j, i < hh ∧ j < ww ∧
          R.data y x = s.data i j := by
  rcases get_bayer_indices_mem p t ht with rfl | rfl | rfl | rfl
  · obtain ⟨R, hR, hRH, hRW, hd⟩ := recon_core s0 s1 s2 s3 hh ww 0 1
      (by omega) (by omega) h0 h0w h1 h1w h2 h2w h3 h3w init
    obtain ⟨R', hR', hRH', hRW', hd'⟩ := recon_core s0 s1 s2 s3 hh ww 0 1
      (by omega) (by omega) h0 h0w h1 h1w h2 h2w h3 h3w init'
    simp only [reconstruct_bayer, ht, List.zip_cons_cons, List.zip_nil_right]
    refine ⟨R, R', hR, hR', hRH, hRW, ?_⟩
    intro y x hy hx
    obtain ⟨c0, c1, c2, c3⟩ := hd y x hy hx
    obtain ⟨c0', c1', c2', c3'⟩ := hd' y x hy hx
    rcases Nat.mod_two_eq_zero_or_one x with hx2 | hx2 <;>
      rcases Nat.mod_two_eq_zero_or_one y with hy2 | hy2
    · refine ⟨(c2 ⟨hx2, hy2⟩).trans ((c2' ⟨hx2, hy2⟩).symm), ?_,
        s2, Or.inr (Or.inr (Or.inl rfl)), (y - 0) / 2, (x - 0) / 2,
        by omega, by omega, c2 ⟨hx2, hy2⟩⟩
      rw [hx2, hy2]
      decide
    · refine ⟨(c0 ⟨hx2, hy2⟩).trans ((c0' ⟨hx2, hy2⟩).symm), ?_,
        s0, Or.inl rfl, (y - 1) / 2, (x - 0) / 2,
        by omega, by omega, c0 ⟨hx2, hy2⟩⟩
      rw [hx2, hy2]
      decide
    · refine ⟨(c3 ⟨hx2, hy2⟩).trans ((c3' ⟨hx2, hy2⟩).symm), ?_,
        s3, Or.inr (Or.inr (Or.inr rfl)), (y - 0) / 2, (x - 1) / 2,
        by omega, by omega, c3 ⟨hx2, hy2⟩⟩
      rw [hx2, hy2]
      decide
    · refine ⟨(c1 ⟨hx2, hy2⟩).trans ((c1' ⟨hx2, hy2⟩).symm), ?_,
        s1, Or.inr (Or.inl rfl), (y - 1) / 2, (x - 1) / 2,
        by omega, by omega, c1 ⟨hx2, hy2⟩⟩
      rw [hx2, hy2]
      decide
  · obtain ⟨R, hR, hRH, hRW, hd⟩ := recon_core s0 s1 s2 s3 hh ww 0 0
      (by omega) (by omega) h0 h0w h1 h1w h2 h2w h3 h3w init
    obtain ⟨R', hR', hRH', hRW', hd'⟩ := recon_core s0 s1 s2 s3 hh ww 0 0
      (by omega) (by omega) h0 h0w h1 h1w h2 h2w h3 h3w init'
    simp only [reconstruct_bayer, ht, List.zip_cons_cons, List.zip_nil_right]
    refine ⟨R, R', hR, hR', hRH, hRW, ?_⟩
    intro y x hy hx
    obtain ⟨c0, c1, c2, c3⟩ := hd y x hy hx
    obtain ⟨c0', c1', c2', c3'⟩ := hd' y x hy hx
    rcases Nat.mod_two_eq_zero_or_one x with hx2 | hx2 <;>
      rcases Nat.mod_two_eq_zero_or_one y with hy2 | hy2
    · refine ⟨(c0 ⟨hx2, hy2⟩).trans ((c0' ⟨hx2, hy2⟩).symm), ?_,
        s0, Or.inl rfl, (y - 0) / 2, (x - 0) / 2,
        by omega, by omega, c0 ⟨hx2, hy2⟩⟩
      rw [hx2, hy2]
      decide
    · refine ⟨(c2 ⟨hx2, hy2⟩).trans ((c2' ⟨hx2, hy2⟩).symm), ?_,
        s2, Or.inr (Or.inr (Or.inl rfl)), (y - 1) / 2, (x - 0) / 2,
        by omega, by omega, c2 ⟨hx2, hy2⟩⟩
      rw [hx2, hy2]
      decide
    · refine ⟨(c1 ⟨hx2, hy2⟩).trans ((c1' ⟨hx2, hy2⟩).symm), ?_,
        s1, Or.inr (Or.inl rfl), (y - 0) / 2, (x - 1) / 2,
        by omega, by omega, c1 ⟨hx2, hy2⟩⟩
      rw [hx2, hy2]
      decide
    · refine ⟨(c3 ⟨hx2, hy2⟩).trans ((c3' ⟨hx2, hy2⟩).symm), ?_,
        s3, Or.inr (Or.inr (Or.inr rfl)), (y - 1) / 2, (x - 1) / 2,
        by omega, by omega, c3 ⟨hx2, hy2⟩⟩
      rw [hx2, hy2]
      decide
  · obtain ⟨R, hR, hRH, hRW, hd⟩ := recon_core s0 s1 s2 s3 hh ww 1 1
      (by omega) (by omega) h0 h0w h1 h1w h2 h2w h3 h3w init
    obtain ⟨R', hR', hRH', hRW', hd'⟩ := recon_core s0 s1 s2 s3 hh ww 1 1
      (by omega) (by omega) h0 h0w h1 h1w h2 h2w h3 h3w init'
    simp only [reconstruct_bayer, ht, List.zip_cons_cons, List.zip_nil_right]
    refine ⟨R, R', hR, hR', hRH, hRW, ?_⟩
    intro y x hy hx
    obtain ⟨c0, c1, c2, c3⟩ := hd y x hy hx
    obtain ⟨c0', c1', c2', c3'⟩ := hd' y x hy hx
    rcases Nat.mod_two_eq_zero_or_one x with hx2 | hx2 <;>
      rcases Nat.mod_two_eq_zero_or_one y with hy2 | hy2
    · refine ⟨(c3 ⟨hx2, hy2⟩).trans ((c3' ⟨hx2, hy2⟩).symm), ?_,
        s3, Or.inr (Or.inr (Or.inr rfl)), (y - 0) / 2, (x - 0) / 2,
        by omega, by omega, c3 ⟨hx2, hy2⟩⟩
      rw [hx2, hy2]
      decide
    · refine ⟨(c1 ⟨hx2, hy2⟩).trans ((c1' ⟨hx2, hy2⟩).symm), ?_,
        s1, Or.inr (Or.inl rfl), (y - 1) / 2, (x - 0) / 2,
        by omega, by omega, c1 ⟨hx2, hy2⟩⟩
      rw [hx2, hy2]
      decide
    · refine ⟨(c2 ⟨hx2, hy2⟩).trans ((c2' ⟨hx2, hy2⟩).symm), ?_,
        s2, Or.inr (Or.inr (Or.inl rfl)), (y - 0) / 2, (x - 1) / 2,
        by omega, by omega, c2 ⟨hx2, hy2⟩⟩
      rw [hx2, hy2]
      decide
    · refine ⟨(c0 ⟨hx2, hy2⟩).trans ((c0' ⟨hx2, hy2⟩).symm), ?_,
        s0, Or.inl rfl, (y - 1) / 2, (x - 1) / 2,
        by omega, by omega, c0 ⟨hx2, hy2⟩⟩
      rw [hx2, hy2]
      decide
  · obtain ⟨R, hR, hRH, hRW, hd⟩ := recon_core s0 s1 s2 s3 hh ww 1 0
      (by omega) (by omega) h0 h0w h1 h1w h2 h2w h3 h3w init
    obtain ⟨R', hR', hRH', hRW', hd'⟩ := recon_core s0 s1 s2 s3 hh ww 1 0
      (by omega) (by omega) h0 h0w h1 h1w h2 h2w h3 h3w init'
    simp only [reconstruct_bayer, ht, List.zip_cons_cons, List.zip_nil_right]
    refine ⟨R, R', hR, hR', hRH, hRW, ?_⟩
    intro y x hy hx
    obtain ⟨c0, c1, c2, c3⟩ := hd y x hy hx
    obtain ⟨c0', c1', c2', c3'⟩ := hd' y x hy hx
    rcases Nat.mod_two_eq_zero_or_one x with hx2 | hx2 <;>
      rcases Nat.mod_two_eq_zero_or_one y with hy2 | hy2
    · refine ⟨(c1 ⟨hx2, hy2⟩).trans ((c1' ⟨hx2, hy2⟩).symm), ?_,
        s1, Or.inr (Or.inl rfl), (y - 0) / 2, (x - 0) / 2,
        by omega, by omega, c1 ⟨hx2, hy2⟩⟩
      rw [hx2, hy2]
      decide
    · refine ⟨(c3 ⟨hx2, hy2⟩).trans ((c3' ⟨hx2, hy2⟩).symm), ?_,
        s3, Or.inr (Or.inr (Or.inr rfl)), (y - 1) / 2, (x - 0) / 2,
        by omega, by omega, c3 ⟨hx2, hy2⟩⟩
      rw [hx2, hy2]
      decide
    · refine ⟨(c0 ⟨hx2, hy2⟩).trans ((c0' ⟨hx2, hy2⟩).symm), ?_,
        s0, Or.inl rfl, (y - 0) / 2, (x - 1) / 2,
        by omega, by omega, c0 ⟨hx2, hy2⟩⟩
      rw [hx2, hy2]
      decide
    · refine ⟨(c2 ⟨hx2, hy2⟩).trans ((c2' ⟨hx2, hy2⟩).symm), ?_,
        s2, Or.inr (Or.inr (Or.inl rfl)), (y - 1) / 2, (x - 1) / 2,
        by omega, by omega, c2 ⟨hx2, hy2⟩⟩
      rw [hx2, hy2]
      decide

/-- Witness for C9 at four concrete 2 x 2 constant sub-arrays, pattern
gbrg, and two different junk allocations. -/
theorem C9_reconstruct_covers_output_witness :
    ∃ R R', reconstruct_bayer [constImg 2 2 1, constImg 2 2 2, constImg 2 2 3,
        constImg 2 2 4] "gbrg" (fun _ _ => 77) = some R ∧
      reconstruct_bayer [constImg 2 2 1, constImg 2 2 2, constImg 2 2 3,
        constImg 2 2 4] "gbrg" (fun _ _ => 88) = some R' ∧
      R.H = 4 ∧ R.W = 4 ∧
      (R.data 1 1 = R'.data 1 1 ∧
        ([((0, 1) : Nat × Nat), (1, 1), (0, 0), (1, 0)].countP
          (fun o => decide (o.1 = 1 % 2 ∧ o.2 = 1 % 2))) = 1 ∧
        ∃ s, (s = constImg 2 2 1 ∨ s = constImg 2 2 2 ∨ s = constImg 2 2 3 ∨
          s = constImg 2 2 4) ∧ ∃ i j, i < 2 ∧ j < 2 ∧ R.data 1 1 = s.data i j) := by
  obtain ⟨R, R', hR, hR', hH, hW, hd⟩ := C9_reconstruct_covers_output "gbrg"
    ((0, 1), (1, 1), (0, 0), (1, 0)) (by decide) (constImg 2 2 1) (constImg 2 2 2)
    (constImg 2 2 3) (constImg 2 2 4) 2 2 rfl rfl rfl rfl rfl rfl rfl rfl
    (fun _ _ => 77) (fun _ _ => 88)
  exact ⟨R, R', hR, hR', hH, hW, hd 1 1 (by decide) (by decide)⟩

/-- C7 counterexample: reconstruct_bayer given four sub-arrays that do
not all have an identical shape, but whose shapes are broadcast-compatible
with the strided target (here a (1, 2) sub-array against a (2, 2) target,
which numpy silently replicates), succeeds and returns a mosaic instead
of failing, so the claim that any shape mismatch fails is false. -/
theorem C7_reconstruct_broadcast_counterexample :
    (constImg 1 2 6).H ≠ (constImg 2 2 5).H ∧
    (reconstruct_bayer [constImg 2 2 5, constImg 1 2 6, constImg 2 2 5,
      constImg 2 2 5] "rggb" (fun _ _ => 99)).isSome = true :=
  ⟨by decide, by decide⟩

/-- C7 (amended): reconstruct_bayer fails (numpy broadcast error, no
output) whenever some sub-array has a dimension that differs from the
first sub-array dimension and is not 1, i.e. is not broadcast-compatible
with its strided target; broadcast-compatible shape mismatches are
silently accepted instead of failing. -/
theorem C7_reconstruct_shape_mismatch {α : Type u} (p : String)
    (t : (Nat × Nat) × (Nat × Nat) × (Nat × Nat) × (Nat × Nat))
    (ht : get_bayer_indices p = some t) (s0 s1 s2 s3 : Img α)
    (init : Nat → Nat → α)
    (hbad : ¬ ((s1.H = s0.H ∨ s1.H = 1) ∧ (s1.W = s0.W ∨ s1.W = 1)) ∨
            ¬ ((s2.H = s0.H ∨ s2.H = 1) ∧ (s2.W = s0.W ∨ s2.W = 1)) ∨
            ¬ ((s3.H = s0.H ∨ s3.H = 1) ∧ (s3.W = s0.W ∨ s3.W = 1))) :
    reconstruct_bayer [s0, s1, s2, s3] p init = none := by
  have e1 : ∀ k : Nat, (2 * k - 1 + 1) / 2 = k := fun k => by omega
  have e0 : ∀ k : Nat, (2 * k - 0 + 1) / 2 = k := fun k => by omega
  have e2 : ∀ k : Nat, (2 * k + 1) / 2 = k := fun k => by omega
  rcases get_bayer_indices_mem p t ht with rfl | rfl | rfl | rfl <;>
    (simp only [reconstruct_bayer, ht, List.zip_cons_cons, List.zip_nil_right]
     apply foldlM_setSlice2_none _ (2 * s0.H) (2 * s0.W) _ rfl rfl
     rcases hbad with hb | hb | hb)
  · exact ⟨((1, 1), s1), by simp, by simpa [e1, e0, e2] using hb⟩
  · exact ⟨((0, 0), s2), by simp, by simpa [e1, e0, e2] using hb⟩
  · exact ⟨((1, 0), s3), by simp, by simpa [e1, e0, e2] using hb⟩
  · exact ⟨((1, 0), s1), by simp, by simpa [e1, e0, e2] using hb⟩
  · exact ⟨((0, 1), s2), by simp, by simpa [e1, e0, e2] using hb⟩
  · exact ⟨((1, 1), s3), by simp, by simpa [e1, e0, e2] using hb⟩
  · exact ⟨((0, 1), s1), by simp, by simpa [e1, e0, e2] using hb⟩
  · exact ⟨((1, 0), s2), by simp, by simpa [e1, e0, e2] using hb⟩
  · exact ⟨((0, 0), s3), by simp, by simpa [e1, e0, e2] using hb⟩
  · exact ⟨((0, 0), s1), by simp, by simpa [e1, e0, e2] using hb⟩
  · exact ⟨((1, 1), s2), by simp, by simpa [e1, e0, e2] using hb⟩
  · exact ⟨((0, 1), s3), by simp, by simpa [e1, e0, e2] using hb⟩

/-- Witness for the amended C7: a (3, 2) sub-array against a (2, 2) first
sub-array is not broadcast-compatible, and reconstruction fails. -/
theorem C7_reconstruct_shape_mismatch_witness :
    reconstruct_bayer [constImg 2 2 5, constImg 3 2 6, constImg 2 2 5,
      constImg 2 2 5] "rggb" (fun _ _ => 0) = none :=
  C7_reconstruct_shape_mismatch "rggb" ((0, 0), (1, 0), (0, 1), (1, 1)) (by decide)
    (constImg 2 2 5) (constImg 3 2 6) (constImg 2 2 5) (constImg 2 2 5)
    (fun _ _ => 0) (Or.inl (by decide))
